import Mathlib

/-!
Verification of the crawl task orchestration engine of the kjn repository.

The repository ships the frontend (Vue) half of the system; the crawl engine
itself sits behind the `/api/v1/spider` HTTP surface. Frontend functions
(`spiderAPI` in `src/frontend/src/utils/api.js`, the `SpiderManagement` view)
are embedded directly from the source; the engine (task registry, spider page
loop, fetcher retries, metrics, result sink, cleanup) is modelled from the
specification, as its code is not part of this repository snapshot.
-/

namespace Kjn

/-- Task lifecycle status, as enumerated by the spec (§3) and by the status
tag maps of the SpiderManagement view. -/
inductive Status
  | idle
  | running
  | paused
  | completed
  | error
  | stopped
deriving DecidableEq, Repr

/-- Modelled from the spec: terminal states are completed, stopped, error
(§4.4, glossary). -/
def isTerminal : Status → Bool
  | .completed => true
  | .stopped => true
  | .error => true
  | _ => false

/-! ## Frontend API layer, embedded from `src/frontend/src/utils/api.js` -/

namespace SpiderAPI

/-- The request issued by `spiderAPI.importTaskData`: a POST to
`/api/v1/spider/task/TASKID/import-data` carrying the query parameter
`enable_ai_analysis`. -/
structure ImportRequest where
  task_id : String
  enable_ai_analysis : Bool
deriving DecidableEq, Repr

/-- Embedded from `api.js` lines 348-352: `importTaskData(taskId,
enableAiAnalysis = true)` — the second JS parameter defaults to `true` when
the caller omits it, modelled by an `Option Bool` argument where `none` is
the omitted argument. -/
def importTaskData (taskId : String) (enableAiAnalysis : Option Bool) : ImportRequest :=
  { task_id := taskId, enable_ai_analysis := enableAiAnalysis.getD true }

end SpiderAPI

/-! ## SpiderManagement view, embedded from `src/unnamed/part_004` -/

namespace SpiderManagement

/-- Embedded from `part_004` lines 756-773: `importData(taskId)` confirms
and then calls `spiderAPI.importTaskData(taskId)` with no second argument. -/
def importData (taskId : String) : SpiderAPI.ImportRequest :=
  SpiderAPI.importTaskData taskId none

/-- The create-task form state of the SpiderManagement view (`createForm`,
`part_004` lines 429-438). -/
structure CreateForm where
  platform : String
  appid : String
  country : String
  days_back : Nat
  market : String
  max_pages : Nat
  task_name : String
  execution_mode : String
deriving DecidableEq, Repr

/-- The spider API calls the create-task flow can issue. -/
inductive ApiCall
  | createQimaiTask (appid country : String) (days_back max_pages : Nat) (task_name : String)
  | createQimaiAndroidTask (market : String) (max_pages : Nat) (task_name : String)
  | runTaskCall (task_id : Nat)
deriving DecidableEq, Repr

/-- Embedded from `part_004` lines 646-688 (`createTask`): the sequence of
spider API calls issued on a successful create. For `platform === 'ios'` it
posts `createQimaiTask`, for `'android'` it posts `createQimaiAndroidTask`;
then `runTask(response.data.task_id)` is called exactly when
`createForm.execution_mode === 'async'`. `newTaskId` is the task id returned
by the create response. For any other platform no create call is made and
the flow aborts in its catch block before issuing `runTask`. -/
def createTaskCalls (form : CreateForm) (newTaskId : Nat) : List ApiCall :=
  if form.platform = "ios" then
    let c := [ApiCall.createQimaiTask form.appid form.country form.days_back
      form.max_pages form.task_name]
    if form.execution_mode = "async" then c ++ [ApiCall.runTaskCall newTaskId] else c
  else if form.platform = "android" then
    let c := [ApiCall.createQimaiAndroidTask form.market form.max_pages form.task_name]
    if form.execution_mode = "async" then c ++ [ApiCall.runTaskCall newTaskId] else c
  else []

end SpiderManagement

/-! ## Engine: lifecycle state machine, modelled from the spec (§4.4) -/

namespace Engine

/-- Control operations of the Task Manager (§4.4), plus the two internal
transitions the running Spider applies (auto-complete and fail). -/
inductive TaskAction
  | runA
  | pauseA
  | resumeA
  | stopA
  | completeA
  | failA
deriving DecidableEq, Repr

/-- Modelled from the spec: the §4.4 state machine. `some s` is the state
after a legal transition, `none` an explicit rejection (the spec: each
control call is a no-op or explicit rejection when the transition is not
legal, and no transition exists out of a terminal state). -/
def applyTransition : Status → TaskAction → Option Status
  | .idle, .runA => some .running
  | .running, .pauseA => some .paused
  | .paused, .resumeA => some .running
  | .running, .completeA => some .completed
  | .running, .stopA => some .stopped
  | .running, .failA => some .error
  | .paused, .stopA => some .stopped
  | _, _ => none

/-- Fold a sequence of actions over a status; a rejected action leaves the
status unchanged. -/
def applyAll (s : Status) : List TaskAction → Status
  | [] => s
  | a :: rest => applyAll ((applyTransition s a).getD s) rest

theorem applyTransition_terminal (s : Status) (a : TaskAction)
    (h : isTerminal s = true) : applyTransition s a = none := by
  cases s <;> simp [isTerminal] at h ⊢ <;> cases a <;> rfl

end Engine

/-! ## Engine: metrics, modelled from the spec (§3 Metrics) -/

namespace Engine

/-- Modelled from the spec: the per-task Metrics snapshot — request counters,
item counters, and the derived `success_rate` (elapsed time and
items-per-second are wall-clock derived and not modelled). -/
structure Metrics where
  total_requests : Nat
  successful_requests : Nat
  failed_requests : Nat
  total_items : Nat
  valid_items : Nat
  success_rate : ℚ
deriving DecidableEq, Repr

/-- The derived success rate: successful over total requests, 0 when no
request was made yet. -/
def rateOf (s t : Nat) : ℚ := if t = 0 then 0 else (s : ℚ) / (t : ℚ)

/-- All-zero metrics of a freshly created task. -/
def initMetrics : Metrics :=
  { total_requests := 0, successful_requests := 0, failed_requests := 0,
    total_items := 0, valid_items := 0, success_rate := 0 }

/-- Modelled from the spec: record the outcome of one fetch request and
recompute the derived success rate. -/
def recordRequest (m : Metrics) (ok : Bool) : Metrics :=
  let t := m.total_requests + 1
  let s := m.successful_requests + (if ok then 1 else 0)
  { m with
    total_requests := t
    successful_requests := s
    failed_requests := m.failed_requests + (if ok then 0 else 1)
    success_rate := rateOf s t }

/-- Modelled from the spec: record one page fetch that made `n` request
attempts, the last of which succeeded iff `ok` (retry semantics of §4.1);
the rate is recomputed from the new totals. -/
def recordFetch (m : Metrics) (n : Nat) (ok : Bool) : Metrics :=
  let t := m.total_requests + n
  let s := m.successful_requests + (if ok then 1 else 0)
  { m with
    total_requests := t
    successful_requests := s
    failed_requests := m.failed_requests + (n - (if ok then 1 else 0))
    success_rate := rateOf s t }

/-- Modelled from the spec: account parsed items into the item counters. -/
def recordItems (m : Metrics) (parsed valid : Nat) : Metrics :=
  { m with total_items := m.total_items + parsed, valid_items := m.valid_items + valid }

/-- The metrics state after a sequence of per-request outcomes, starting
from a fresh task. -/
def applyEvents (events : List Bool) : Metrics :=
  events.foldl recordRequest initMetrics

/-- The C1 invariant: the success counter never exceeds the request counter,
the derived rate lies in [0,1], and whenever any request was made the rate
equals successful over total. -/
def metricsInv (m : Metrics) : Prop :=
  m.successful_requests ≤ m.total_requests ∧
  0 ≤ m.success_rate ∧ m.success_rate ≤ 1 ∧
  (0 < m.total_requests →
    m.success_rate = (m.successful_requests : ℚ) / (m.total_requests : ℚ))

theorem rateOf_nonneg (s t : Nat) : 0 ≤ rateOf s t := by
  unfold rateOf
  split
  · exact le_refl 0
  · positivity

theorem rateOf_le_one (s t : Nat) (h : s ≤ t) : rateOf s t ≤ 1 := by
  unfold rateOf
  split
  · exact zero_le_one
  · rename_i ht
    rw [div_le_one (by positivity)]
    exact_mod_cast h

theorem metricsInv_init : metricsInv initMetrics := by
  refine ⟨le_refl 0, le_refl 0, zero_le_one, ?_⟩
  intro h
  exact absurd h (by simp [initMetrics])

theorem metricsInv_recordRequest (m : Metrics) (ok : Bool)
    (h : metricsInv m) : metricsInv (recordRequest m ok) := by
  obtain ⟨hle, h2⟩ := h
  have hle2 : m.successful_requests + (if ok then 1 else 0) ≤ m.total_requests + 1 := by
    cases ok <;> simp <;> omega
  refine ⟨hle2, rateOf_nonneg _ _, rateOf_le_one _ _ hle2, ?_⟩
  intro hpos
  have ht : m.total_requests + 1 ≠ 0 := Nat.succ_ne_zero _
  simp [recordRequest, rateOf, ht]

theorem metricsInv_recordFetch (m : Metrics) (n : Nat) (ok : Bool)
    (hn : ok = true → 1 ≤ n) (h : metricsInv m) : metricsInv (recordFetch m n ok) := by
  obtain ⟨hle, h2⟩ := h
  have hle2 : m.successful_requests + (if ok then 1 else 0) ≤ m.total_requests + n := by
    cases ok
    · simp
      omega
    · have h1 := hn rfl
      simp
      omega
  refine ⟨hle2, rateOf_nonneg _ _, rateOf_le_one _ _ hle2, ?_⟩
  intro hpos
  have ht : m.total_requests + n ≠ 0 := by
    simp only [recordFetch] at hpos
    omega
  simp [recordFetch, rateOf, ht]

theorem metricsInv_recordItems (m : Metrics) (p v : Nat)
    (h : metricsInv m) : metricsInv (recordItems m p v) := h

theorem metricsInv_applyEvents (events : List Bool) :
    metricsInv (applyEvents events) := by
  suffices h : ∀ m, metricsInv m → metricsInv (events.foldl recordRequest m) from
    h initMetrics metricsInv_init
  induction events with
  | nil => intro m hm; exact hm
  | cons e rest ih =>
    intro m hm
    exact ih _ (metricsInv_recordRequest m e hm)

end Engine

/-! ## Engine: spider page loop, modelled from the spec (§4.1, §4.2, §5) -/

namespace Engine

/-- Modelled from the spec: the normalized item shape all parsers produce
(§3 NormalizedItem): content, optional rating, submitter, product, source
timestamp, platform tag. Timestamps are abstract naturals. -/
structure NormalizedItem where
  content : String
  rating : Option Nat
  author : String
  product : String
  source_timestamp : Nat
  platform : String
deriving DecidableEq, Repr

/-- One parsed page: its normalized items and the more-pages signal (§4.3). -/
structure PageData where
  items : List NormalizedItem
  hasMore : Bool
deriving DecidableEq, Repr

/-- The environment a run executes against: for page `p` and attempt index
`a` (0-based within that page), either a parsed page or a fetch failure. -/
def Fetcher : Type := Nat → Nat → Option PageData

/-- Modelled from the spec: the Fetcher retry loop (§4.1) — up to the given
attempt budget for one page, returning the number of requests actually made
together with the result; stops at the first success. -/
def fetchAttempts (f : Fetcher) (page : Nat) : Nat → Nat → Nat × Option PageData
  | _, 0 => (0, none)
  | attempt, budget + 1 =>
    match f page attempt with
    | some pd => (1, some pd)
    | none =>
      let r := fetchAttempts f page (attempt + 1) budget
      (r.1 + 1, r.2)

/-- One page fetch with the configured `retry_times` attempt budget. -/
def fetchWithRetry (f : Fetcher) (page retry : Nat) : Nat × Option PageData :=
  fetchAttempts f page 0 retry

theorem fetchAttempts_fst_le (f : Fetcher) (page : Nat) :
    ∀ budget attempt, (fetchAttempts f page attempt budget).1 ≤ budget := by
  intro budget
  induction budget with
  | zero => intro attempt; simp [fetchAttempts]
  | succ b ih =>
    intro attempt
    simp only [fetchAttempts]
    cases f page attempt with
    | some pd => simp
    | none => simpa using ih (attempt + 1)

theorem fetchAttempts_all_none (f : Fetcher) (page : Nat)
    (hf : ∀ a, f page a = none) :
    ∀ budget attempt, fetchAttempts f page attempt budget = (budget, none) := by
  intro budget
  induction budget with
  | zero => intro attempt; rfl
  | succ b ih =>
    intro attempt
    simp only [fetchAttempts, hf attempt, ih (attempt + 1)]

theorem fetchAttempts_some_pos (f : Fetcher) (page : Nat) :
    ∀ budget attempt n pd,
      fetchAttempts f page attempt budget = (n, some pd) → 1 ≤ n := by
  intro budget
  induction budget with
  | zero => intro attempt n pd h; simp [fetchAttempts] at h
  | succ b ih =>
    intro attempt n pd h
    simp only [fetchAttempts] at h
    cases hfa : f page attempt with
    | some q =>
      rw [hfa] at h
      simp only [Prod.mk.injEq] at h
      omega
    | none =>
      rw [hfa] at h
      simp only [Prod.mk.injEq] at h
      omega

theorem fetchWithRetry_fst_le (f : Fetcher) (page retry : Nat) :
    (fetchWithRetry f page retry).1 ≤ retry :=
  fetchAttempts_fst_le f page retry 0

theorem fetchWithRetry_some_pos (f : Fetcher) (page retry n : Nat) (pd : PageData)
    (h : fetchWithRetry f page retry = (n, some pd)) : 1 ≤ n :=
  fetchAttempts_some_pos f page retry 0 n pd h

theorem fetchWithRetry_first_ok (f : Fetcher) (page retry : Nat) (pd : PageData)
    (h : f page 0 = some pd) (hr : 1 ≤ retry) :
    fetchWithRetry f page retry = (1, some pd) := by
  obtain ⟨b, rfl⟩ : ∃ b, retry = b + 1 := ⟨retry - 1, by omega⟩
  simp [fetchWithRetry, fetchAttempts, h]

/-- The cooperative control flag polled at the top of the page loop (§4.2
step 4, design note on cooperative pause/cancel). -/
inductive Control
  | go
  | pauseReq
  | stopReq
deriving DecidableEq, Repr

/-- The per-task spider configuration the claims exercise: the retry budget,
the page cap, and the lookback cutoff timestamp (`none` for jobs without a
time window). -/
structure SpiderConfig where
  retry_times : Nat
  max_pages : Nat
  cutoff : Option Nat
deriving DecidableEq, Repr

/-- The observable state of one running task: lifecycle status, control
flag, next page to request, pages already fetched in order, the append-only
item buffer, metrics, and the error message set on failure. -/
structure RunState where
  status : Status
  control : Control
  nextPage : Nat
  fetched : List Nat
  buffer : List NormalizedItem
  metrics : Metrics
  errorMsg : Option String
deriving DecidableEq, Repr

/-- Oldest (smallest) source timestamp on a page. -/
def oldestTimestamp : List NormalizedItem → Option Nat
  | [] => none
  | i :: rest => some (rest.foldl (fun a j => min a j.source_timestamp) i.source_timestamp)

/-- Modelled from the spec: the early lookback-window stopping condition
(§4.2 step 3) — the oldest item on the page falls outside the window. -/
def cutoffHit (cfg : SpiderConfig) (items : List NormalizedItem) : Bool :=
  match cfg.cutoff, oldestTimestamp items with
  | some c, some t => decide (t < c)
  | _, _ => false

/-- Modelled from the spec: one iteration of the spider page loop (§4.2).
At the top of the iteration the control flag is polled (stop wins, then
pause); then the page cap is checked; then the next page is fetched with
the retry budget. Retry exhaustion is a FetchError escalated to task
`error` (§7); a fetched page appends its items to the buffer in page order
and completes the task early when the more-pages signal is off or the
lookback cutoff is hit. States that are not `running` are left unchanged —
a paused task is suspended, a terminal task is frozen. -/
def step (cfg : SpiderConfig) (f : Fetcher) (s : RunState) : RunState :=
  if s.status = .running then
    if s.control = .stopReq then { s with status := .stopped }
    else if s.control = .pauseReq then { s with status := .paused }
    else if cfg.max_pages < s.nextPage then { s with status := .completed }
    else
      match fetchWithRetry f s.nextPage cfg.retry_times with
      | (n, none) =>
        { s with
          status := .error
          metrics := recordFetch s.metrics n false
          errorMsg := some "fetch failed after retries" }
      | (n, some pd) =>
        if !pd.hasMore || cutoffHit cfg pd.items then
          { s with
            status := .completed
            nextPage := s.nextPage + 1
            fetched := s.fetched ++ [s.nextPage]
            buffer := s.buffer ++ pd.items
            metrics := recordItems (recordFetch s.metrics n true)
              pd.items.length pd.items.length }
        else
          { s with
            nextPage := s.nextPage + 1
            fetched := s.fetched ++ [s.nextPage]
            buffer := s.buffer ++ pd.items
            metrics := recordItems (recordFetch s.metrics n true)
              pd.items.length pd.items.length }
  else s

/-- Modelled from the spec: `pause(task_id)` sets the spider's control flag;
it only applies to a running task (§4.4). -/
def requestPause (s : RunState) : RunState :=
  if s.status = .running then { s with control := .pauseReq } else s

/-- Modelled from the spec: `stop(task_id)` — on a running task it sets the
flag the loop will observe; on a paused (suspended) task it transitions to
stopped directly; otherwise rejected as a no-op. -/
def requestStop (s : RunState) : RunState :=
  if s.status = .running then { s with control := .stopReq }
  else if s.status = .paused then { s with status := .stopped, control := .stopReq }
  else s

/-- Modelled from the spec: `resume(task_id)` clears the pause and puts a
paused task back to running; on any other state it is rejected unchanged
(no transition out of a terminal state). -/
def resume (s : RunState) : RunState :=
  if s.status = .paused then { s with status := .running, control := .go } else s

/-- The state in which a run starts: page 1, empty buffer, zero metrics. -/
def initRunState : RunState :=
  { status := .running, control := .go, nextPage := 1, fetched := [], buffer := [],
    metrics := initMetrics, errorMsg := none }

/-- Fueled iteration of the loop; fuel `max_pages + 2` always suffices for
an uninterrupted run. -/
def runAux (cfg : SpiderConfig) (f : Fetcher) : Nat → RunState → RunState
  | 0, s => s
  | fuel + 1, s =>
    if s.status = .running then runAux cfg f fuel (step cfg f s) else s

/-- Modelled from the spec: a full uninterrupted (blocking-mode) spider run. -/
def runSpider (cfg : SpiderConfig) (f : Fetcher) : RunState :=
  runAux cfg f (cfg.max_pages + 2) initRunState

/-- A fetcher whose every request fails (the §8 fault-injection scenario). -/
def failingFetcher : Fetcher := fun _ _ => none

theorem runAux_succ (cfg : SpiderConfig) (f : Fetcher) (fuel : Nat) (s : RunState) :
    runAux cfg f (fuel + 1) s =
      if s.status = .running then runAux cfg f fuel (step cfg f s) else s := rfl

theorem runAux_not_running (cfg : SpiderConfig) (f : Fetcher) (fuel : Nat)
    (s : RunState) (h : ¬ s.status = .running) : runAux cfg f fuel s = s := by
  cases fuel with
  | zero => rfl
  | succ fuel => simp [runAux_succ, h]

theorem runAux_two_plus (cfg : SpiderConfig) (f : Fetcher) (k : Nat) (s : RunState) :
    runAux cfg f (k + 2) s =
      if s.status = .running then runAux cfg f (k + 1) (step cfg f s) else s := rfl

theorem step_not_running (cfg : SpiderConfig) (f : Fetcher) (s : RunState)
    (h : ¬ s.status = .running) : step cfg f s = s := by
  unfold step
  rw [if_neg h]

theorem step_pause_flag (cfg : SpiderConfig) (f : Fetcher) (s : RunState)
    (hrun : s.status = .running) (hctl : s.control = .pauseReq) :
    step cfg f s = { s with status := .paused } := by
  unfold step
  rw [if_pos hrun, if_neg (by simp [hctl]), if_pos hctl]

theorem step_stop_flag (cfg : SpiderConfig) (f : Fetcher) (s : RunState)
    (hrun : s.status = .running) (hctl : s.control = .stopReq) :
    step cfg f s = { s with status := .stopped } := by
  unfold step
  rw [if_pos hrun, if_pos hctl]

theorem step_cap (cfg : SpiderConfig) (f : Fetcher) (s : RunState)
    (hrun : s.status = .running) (hctl : s.control = .go)
    (hcap : cfg.max_pages < s.nextPage) :
    step cfg f s = { s with status := .completed } := by
  unfold step
  rw [if_pos hrun, if_neg (by simp [hctl]), if_neg (by simp [hctl]), if_pos hcap]

theorem step_fetch_none (cfg : SpiderConfig) (f : Fetcher) (s : RunState) (n : Nat)
    (hrun : s.status = .running) (hctl : s.control = .go)
    (hcap : ¬ cfg.max_pages < s.nextPage)
    (hf : fetchWithRetry f s.nextPage cfg.retry_times = (n, none)) :
    step cfg f s =
      { s with
        status := .error
        metrics := recordFetch s.metrics n false
        errorMsg := some "fetch failed after retries" } := by
  unfold step
  rw [if_pos hrun, if_neg (by simp [hctl]), if_neg (by simp [hctl]), if_neg hcap, hf]

theorem step_fetch_some (cfg : SpiderConfig) (f : Fetcher) (s : RunState) (n : Nat)
    (pd : PageData)
    (hrun : s.status = .running) (hctl : s.control = .go)
    (hcap : ¬ cfg.max_pages < s.nextPage)
    (hf : fetchWithRetry f s.nextPage cfg.retry_times = (n, some pd)) :
    step cfg f s =
      if !pd.hasMore || cutoffHit cfg pd.items then
        { s with
          status := .completed
          nextPage := s.nextPage + 1
          fetched := s.fetched ++ [s.nextPage]
          buffer := s.buffer ++ pd.items
          metrics := recordItems (recordFetch s.metrics n true)
            pd.items.length pd.items.length }
      else
        { s with
          nextPage := s.nextPage + 1
          fetched := s.fetched ++ [s.nextPage]
          buffer := s.buffer ++ pd.items
          metrics := recordItems (recordFetch s.metrics n true)
            pd.items.length pd.items.length } := by
  unfold step
  rw [if_pos hrun, if_neg (by simp [hctl]), if_neg (by simp [hctl]), if_neg hcap, hf]

theorem page_mul_bound (t n p r maxp : Nat) (hle : t ≤ (p - 1) * r) (hn : n ≤ r)
    (h1 : 1 ≤ p) (hp : p ≤ maxp) : t + n ≤ maxp * r := by
  have h2 : t + n ≤ (p - 1) * r + r := Nat.add_le_add hle hn
  have h3 : (p - 1) * r + r = p * r := by
    have hp1 : p - 1 + 1 = p := by omega
    calc (p - 1) * r + r = (p - 1 + 1) * r := by rw [Nat.succ_mul]
    _ = p * r := by rw [hp1]
  have h4 : p * r ≤ maxp * r := Nat.mul_le_mul hp (Nat.le_refl r)
  omega

theorem runAux_total_le (cfg : SpiderConfig) (f : Fetcher) :
    ∀ fuel s,
      (s.status = .running →
        s.control = .go ∧
        s.metrics.total_requests ≤ (s.nextPage - 1) * cfg.retry_times ∧
        1 ≤ s.nextPage ∧ s.nextPage ≤ cfg.max_pages + 1) →
      (¬ s.status = .running →
        s.metrics.total_requests ≤ cfg.max_pages * cfg.retry_times) →
      (runAux cfg f fuel s).metrics.total_requests ≤
        cfg.max_pages * cfg.retry_times := by
  intro fuel
  induction fuel with
  | zero =>
    intro s h1 h2
    by_cases hrun : s.status = .running
    · obtain ⟨_, hle, h1p, hcap⟩ := h1 hrun
      calc s.metrics.total_requests ≤ (s.nextPage - 1) * cfg.retry_times := hle
      _ ≤ cfg.max_pages * cfg.retry_times :=
        Nat.mul_le_mul (by omega) (Nat.le_refl _)
    · exact h2 hrun
  | succ k ih =>
    intro s h1 h2
    rw [runAux_succ]
    by_cases hrun : s.status = .running
    case neg => rw [if_neg hrun]; exact h2 hrun
    rw [if_pos hrun]
    obtain ⟨hgo, hle, h1p, hcapinv⟩ := h1 hrun
    by_cases hcap : cfg.max_pages < s.nextPage
    · rw [step_cap cfg f s hrun hgo hcap]
      apply ih
      · intro hr; exact absurd hr (by simp)
      · intro _
        have hpg : s.nextPage = cfg.max_pages + 1 := by omega
        calc s.metrics.total_requests ≤ (s.nextPage - 1) * cfg.retry_times := hle
        _ = cfg.max_pages * cfg.retry_times := by rw [hpg]; simp
    · cases hf : fetchWithRetry f s.nextPage cfg.retry_times with
      | mk n res =>
        have hnle : n ≤ cfg.retry_times := by
          have h5 := fetchWithRetry_fst_le f s.nextPage cfg.retry_times
          rw [hf] at h5
          exact h5
        have hbound : s.metrics.total_requests + n ≤ cfg.max_pages * cfg.retry_times :=
          page_mul_bound _ n s.nextPage cfg.retry_times cfg.max_pages hle hnle h1p
            (by omega)
        cases res with
        | none =>
          rw [step_fetch_none cfg f s n hrun hgo hcap hf]
          apply ih
          · intro hr; exact absurd hr (by simp)
          · intro _
            show (recordFetch s.metrics n false).total_requests ≤ _
            simp only [recordFetch]
            exact hbound
        | some pd =>
          rw [step_fetch_some cfg f s n pd hrun hgo hcap hf]
          by_cases hmore : (!pd.hasMore || cutoffHit cfg pd.items) = true
          · rw [if_pos hmore]
            apply ih
            · intro hr; exact absurd hr (by simp)
            · intro _
              show (recordItems (recordFetch s.metrics n true) _ _).total_requests ≤ _
              simp only [recordItems, recordFetch]
              exact hbound
          · rw [if_neg hmore]
            apply ih
            · intro _
              refine ⟨hgo, ?_, by show 1 ≤ s.nextPage + 1; omega,
                by show s.nextPage + 1 ≤ cfg.max_pages + 1; omega⟩
              show (recordItems (recordFetch s.metrics n true) _ _).total_requests ≤
                (s.nextPage + 1 - 1) * cfg.retry_times
              simp only [recordItems, recordFetch, Nat.add_sub_cancel]
              have hp1 : s.nextPage - 1 + 1 = s.nextPage := by omega
              calc s.metrics.total_requests + n
                  ≤ (s.nextPage - 1) * cfg.retry_times + cfg.retry_times :=
                    Nat.add_le_add hle hnle
              _ = (s.nextPage - 1 + 1) * cfg.retry_times := by rw [Nat.succ_mul]
              _ = s.nextPage * cfg.retry_times := by rw [hp1]
            · intro hr
              exact absurd (show ({ s with
                nextPage := s.nextPage + 1
                fetched := s.fetched ++ [s.nextPage]
                buffer := s.buffer ++ pd.items
                metrics := recordItems (recordFetch s.metrics n true)
                  pd.items.length pd.items.length } : RunState).status = .running
                from hrun) hr

theorem fetchWithRetry_ok_le_one (f : Fetcher) (page retry n : Nat)
    (res : Option PageData) (hok : (f page 0).isSome = true)
    (hf : fetchWithRetry f page retry = (n, res)) : n ≤ 1 := by
  cases retry with
  | zero =>
    have h0 : fetchWithRetry f page 0 = ((0 : Nat), (none : Option PageData)) := rfl
    rw [h0] at hf
    simp only [Prod.mk.injEq] at hf
    omega
  | succ k =>
    obtain ⟨pd, hpd⟩ := Option.isSome_iff_exists.mp hok
    have h1 := fetchWithRetry_first_ok f page (k + 1) pd hpd (by omega)
    rw [h1] at hf
    simp only [Prod.mk.injEq] at hf
    omega

theorem runAux_total_le_ok (cfg : SpiderConfig) (f : Fetcher)
    (hok : ∀ p, (f p 0).isSome = true) :
    ∀ fuel s,
      (s.status = .running →
        s.control = .go ∧
        s.metrics.total_requests ≤ s.nextPage - 1 ∧
        1 ≤ s.nextPage ∧ s.nextPage ≤ cfg.max_pages + 1) →
      (¬ s.status = .running → s.metrics.total_requests ≤ cfg.max_pages) →
      (runAux cfg f fuel s).metrics.total_requests ≤ cfg.max_pages := by
  intro fuel
  induction fuel with
  | zero =>
    intro s h1 h2
    by_cases hrun : s.status = .running
    · obtain ⟨_, hle, h1p, hcap⟩ := h1 hrun
      show s.metrics.total_requests ≤ cfg.max_pages
      omega
    · exact h2 hrun
  | succ k ih =>
    intro s h1 h2
    rw [runAux_succ]
    by_cases hrun : s.status = .running
    case neg => rw [if_neg hrun]; exact h2 hrun
    rw [if_pos hrun]
    obtain ⟨hgo, hle, h1p, hcapinv⟩ := h1 hrun
    by_cases hcap : cfg.max_pages < s.nextPage
    · rw [step_cap cfg f s hrun hgo hcap]
      apply ih
      · intro hr; exact absurd hr (by simp)
      · intro _
        show s.metrics.total_requests ≤ cfg.max_pages
        omega
    · cases hf : fetchWithRetry f s.nextPage cfg.retry_times with
      | mk n res =>
        have hnle : n ≤ 1 :=
          fetchWithRetry_ok_le_one f s.nextPage cfg.retry_times n res
            (hok s.nextPage) hf
        cases res with
        | none =>
          rw [step_fetch_none cfg f s n hrun hgo hcap hf]
          apply ih
          · intro hr; exact absurd hr (by simp)
          · intro _
            show (recordFetch s.metrics n false).total_requests ≤ _
            simp only [recordFetch]
            omega
        | some pd =>
          rw [step_fetch_some cfg f s n pd hrun hgo hcap hf]
          by_cases hmore : (!pd.hasMore || cutoffHit cfg pd.items) = true
          · rw [if_pos hmore]
            apply ih
            · intro hr; exact absurd hr (by simp)
            · intro _
              show (recordItems (recordFetch s.metrics n true) _ _).total_requests ≤ _
              simp only [recordItems, recordFetch]
              omega
          · rw [if_neg hmore]
            apply ih
            · intro _
              refine ⟨hgo, ?_, by show 1 ≤ s.nextPage + 1; omega,
                by show s.nextPage + 1 ≤ cfg.max_pages + 1; omega⟩
              show (recordItems (recordFetch s.metrics n true) _ _).total_requests ≤
                s.nextPage + 1 - 1
              simp only [recordItems, recordFetch, Nat.add_sub_cancel]
              omega
            · intro hr
              exact absurd (show ({ s with
                nextPage := s.nextPage + 1
                fetched := s.fetched ++ [s.nextPage]
                buffer := s.buffer ++ pd.items
                metrics := recordItems (recordFetch s.metrics n true)
                  pd.items.length pd.items.length } : RunState).status = .running
                from hrun) hr

theorem runAux_terminal (cfg : SpiderConfig) (f : Fetcher) :
    ∀ fuel s, s.status = .running → s.control = .go →
      s.nextPage ≤ cfg.max_pages + 1 → cfg.max_pages + 2 ≤ s.nextPage + fuel →
      isTerminal (runAux cfg f fuel s).status = true := by
  intro fuel
  induction fuel with
  | zero =>
    intro s _ _ hle hge
    omega
  | succ k ih =>
    intro s hrun hgo hle hge
    rw [runAux_succ, if_pos hrun]
    by_cases hcap : cfg.max_pages < s.nextPage
    · rw [step_cap cfg f s hrun hgo hcap, runAux_not_running _ _ _ _ (by simp)]
      rfl
    · cases hf : fetchWithRetry f s.nextPage cfg.retry_times with
      | mk n res =>
        cases res with
        | none =>
          rw [step_fetch_none cfg f s n hrun hgo hcap hf,
            runAux_not_running _ _ _ _ (by simp)]
          rfl
        | some pd =>
          rw [step_fetch_some cfg f s n pd hrun hgo hcap hf]
          by_cases hmore : (!pd.hasMore || cutoffHit cfg pd.items) = true
          · rw [if_pos hmore, runAux_not_running _ _ _ _ (by simp)]
            rfl
          · rw [if_neg hmore]
            apply ih
            · exact hrun
            · exact hgo
            · show s.nextPage + 1 ≤ cfg.max_pages + 1
              omega
            · show cfg.max_pages + 2 ≤ s.nextPage + 1 + k
              omega

theorem runSpider_terminal (cfg : SpiderConfig) (f : Fetcher) :
    isTerminal (runSpider cfg f).status = true := by
  apply runAux_terminal cfg f (cfg.max_pages + 2) initRunState rfl rfl
  · show (1 : Nat) ≤ cfg.max_pages + 1
    omega
  · show cfg.max_pages + 2 ≤ 1 + (cfg.max_pages + 2)
    omega

theorem runSpider_total_le (cfg : SpiderConfig) (f : Fetcher) :
    (runSpider cfg f).metrics.total_requests ≤
      cfg.max_pages * cfg.retry_times := by
  apply runAux_total_le cfg f (cfg.max_pages + 2) initRunState
  · intro _
    refine ⟨rfl, ?_, ?_, ?_⟩
    · show (0 : Nat) ≤ (1 - 1) * cfg.retry_times
      omega
    · exact Nat.le_refl 1
    · show (1 : Nat) ≤ cfg.max_pages + 1
      omega
  · intro h
    exact absurd rfl h

theorem runSpider_total_le_ok (cfg : SpiderConfig) (f : Fetcher)
    (hok : ∀ p, (f p 0).isSome = true) :
    (runSpider cfg f).metrics.total_requests ≤ cfg.max_pages := by
  apply runAux_total_le_ok cfg f hok (cfg.max_pages + 2) initRunState
  · intro _
    refine ⟨rfl, ?_, Nat.le_refl 1, ?_⟩
    · show (0 : Nat) ≤ 1 - 1
      omega
    · show (1 : Nat) ≤ cfg.max_pages + 1
      omega
  · intro h
    exact absurd rfl h

/-- A fetcher whose every first attempt succeeds with an empty last page. -/
def alwaysOkFetcher : Fetcher := fun _ _ => some { items := [], hasMore := false }

theorem metricsInv_step (cfg : SpiderConfig) (f : Fetcher) (s : RunState)
    (h : metricsInv s.metrics) : metricsInv (step cfg f s).metrics := by
  by_cases hrun : s.status = .running
  case neg => rw [step_not_running cfg f s hrun]; exact h
  by_cases hstop : s.control = .stopReq
  · rw [step_stop_flag cfg f s hrun hstop]; exact h
  by_cases hpause : s.control = .pauseReq
  · rw [step_pause_flag cfg f s hrun hpause]; exact h
  have hgo : s.control = .go := by
    cases hc : s.control with
    | go => rfl
    | pauseReq => exact absurd hc hpause
    | stopReq => exact absurd hc hstop
  by_cases hcap : cfg.max_pages < s.nextPage
  · rw [step_cap cfg f s hrun hgo hcap]; exact h
  cases hf : fetchWithRetry f s.nextPage cfg.retry_times with
  | mk n res =>
    cases res with
    | none =>
      rw [step_fetch_none cfg f s n hrun hgo hcap hf]
      exact metricsInv_recordFetch s.metrics n false (fun hh => absurd hh (by simp)) h
    | some pd =>
      rw [step_fetch_some cfg f s n pd hrun hgo hcap hf]
      have h1 : 1 ≤ n := fetchWithRetry_some_pos f s.nextPage cfg.retry_times n pd hf
      have h2 := metricsInv_recordItems (recordFetch s.metrics n true)
        pd.items.length pd.items.length
        (metricsInv_recordFetch s.metrics n true (fun _ => h1) h)
      by_cases hmore : (!pd.hasMore || cutoffHit cfg pd.items) = true
      · rw [if_pos hmore]; exact h2
      · rw [if_neg hmore]; exact h2

theorem metricsInv_runAux (cfg : SpiderConfig) (f : Fetcher) :
    ∀ fuel s, metricsInv s.metrics → metricsInv (runAux cfg f fuel s).metrics := by
  intro fuel
  induction fuel with
  | zero => intro s h; exact h
  | succ k ih =>
    intro s h
    rw [runAux_succ]
    by_cases hrun : s.status = .running
    · rw [if_pos hrun]; exact ih _ (metricsInv_step cfg f s h)
    · rw [if_neg hrun]; exact h

end Engine

/-! ## Engine: task registry, cleanup, result sink — modelled from the spec
(§3, §4.4, §4.5, §6) -/

namespace Engine

/-- Modelled from the spec: immutable create-time task parameters (§3,
§6 Create contract). -/
structure TaskParams where
  platform : String
  target_id : String
  country : String
  days_back : Nat
  max_pages : Nat
  task_name : String
deriving DecidableEq, Repr

/-- Modelled from the spec: one registry task record (§3 Task). -/
structure Task where
  task_id : Nat
  status : Status
  completed_at : Option Nat
  params : TaskParams
  metrics : Metrics
  buffer : List NormalizedItem
deriving DecidableEq, Repr

/-- The default retention window: 7 days past `completed_at`, in seconds. -/
def defaultRetentionSeconds : Nat := 7 * 24 * 60 * 60

/-- Modelled from the spec: a task is eligible for cleanup when it is
terminal and its terminal timestamp is older than the retention window
(§4.4 cleanup). -/
def isExpired (now retention : Nat) (t : Task) : Bool :=
  isTerminal t.status &&
    match t.completed_at with
    | some c => decide (c + retention < now)
    | none => false

/-- The cleanup eligibility condition, as a proposition. -/
def expiredProp (now retention : Nat) (t : Task) : Prop :=
  isTerminal t.status = true ∧ ∃ c, t.completed_at = some c ∧ c + retention < now

/-- Modelled from the spec: `cleanup(retentionWindow)` removes the expired
terminal tasks and returns the number removed (§4.4). -/
def cleanupTasks (now retention : Nat) (tasks : List Task) : List Task × Nat :=
  let kept := tasks.filter (fun t => !isExpired now retention t)
  (kept, tasks.length - kept.length)

theorem isExpired_iff (now retention : Nat) (t : Task) :
    isExpired now retention t = true ↔ expiredProp now retention t := by
  unfold isExpired expiredProp
  cases hc : t.completed_at with
  | none => simp [hc]
  | some c => simp [hc]

theorem cleanup_count (now retention : Nat) (tasks : List Task) :
    (cleanupTasks now retention tasks).2 =
      (tasks.filter (fun t => isExpired now retention t)).length := by
  show tasks.length - (tasks.filter (fun t => !isExpired now retention t)).length =
    (tasks.filter (fun t => isExpired now retention t)).length
  induction tasks with
  | nil => rfl
  | cons a l ih =>
    have hle : (l.filter (fun t => !isExpired now retention t)).length ≤ l.length :=
      List.length_filter_le _ _
    by_cases h : isExpired now retention a = true
    · simp [List.filter_cons, h]
      omega
    · have h2 : isExpired now retention a = false := by
        cases hb : isExpired now retention a
        · rfl
        · exact absurd hb h
      simp [List.filter_cons, h2]
      omega

/-- Modelled from the spec: the Result Sink preview payload (§6 Preview). -/
structure PreviewResult where
  total_count : Nat
  preview_count : Nat
  preview_data : List NormalizedItem
deriving DecidableEq, Repr

/-- Modelled from the spec: `preview(task_id, limit)` serves a read-only
sample of the task's buffer without mutating the registry and without
requiring the task to be terminal (§4.5); the registry is returned alongside
the payload to make the frame condition explicit. -/
def previewTask (reg : List Task) (tid limit : Nat) :
    Option PreviewResult × List Task :=
  match reg.find? (fun t => t.task_id == tid) with
  | none => (none, reg)
  | some t =>
    (some { total_count := t.buffer.length
            preview_count := (t.buffer.take limit).length
            preview_data := t.buffer.take limit }, reg)

/-- True exactly for the running lifecycle state. -/
def isRunningB (s : Status) : Bool :=
  match s with
  | .running => true
  | _ => false

/-- Modelled from the spec: the Task Manager — the registry plus the global
`max_concurrent` ceiling on simultaneously running tasks (§4.1, §4.4). -/
structure Manager where
  tasks : List Task
  max_concurrent : Nat
deriving DecidableEq, Repr

/-- Number of registered tasks currently running. -/
def countRunning (ts : List Task) : Nat :=
  (ts.filter (fun t => isRunningB t.status)).length

/-- Rejections `run(task_id)` can produce (§7 taxonomy). -/
inductive RunError
  | notFound
  | concurrencyLimit
  | illegalTransition
deriving DecidableEq, Repr

/-- Set the status of the task with the given id. -/
def setStatus (ts : List Task) (tid : Nat) (st : Status) : List Task :=
  ts.map (fun t => if t.task_id = tid then { t with status := st } else t)

/-- Modelled from the spec: `run(task_id)` (§4.4) — rejects an unknown id;
rejects with the concurrency-limit error when the ceiling of running tasks
is already reached, leaving the registry untouched; rejects an illegal
transition; otherwise marks the idle task running. -/
def runTask (m : Manager) (tid : Nat) : Manager × Option RunError :=
  match m.tasks.find? (fun t => t.task_id == tid) with
  | none => (m, some .notFound)
  | some t =>
    if m.max_concurrent ≤ countRunning m.tasks then (m, some .concurrencyLimit)
    else if t.status = .idle then
      ({ m with tasks := setStatus m.tasks tid .running }, none)
    else (m, some .illegalTransition)

/-- Modelled from the spec: the auto-complete transition a running task's
spider applies when its run finishes (§4.4). -/
def markCompleted (m : Manager) (tid : Nat) : Manager :=
  { m with tasks := setStatus m.tasks tid .completed }

theorem countRunning_cons (x : Task) (xs : List Task) :
    countRunning (x :: xs) =
      if isRunningB x.status = true then countRunning xs + 1 else countRunning xs := by
  unfold countRunning
  rw [List.filter_cons]
  by_cases h : isRunningB x.status = true
  · rw [if_pos h, if_pos h]
    rfl
  · rw [if_neg h, if_neg h]

theorem find?_setStatus (ts : List Task) (tid rid : Nat) (st : Status) :
    (setStatus ts rid st).find? (fun t => t.task_id == tid) =
      (ts.find? (fun t => t.task_id == tid)).map
        (fun t => if t.task_id = rid then { t with status := st } else t) := by
  unfold setStatus
  rw [List.find?_map]
  have hpred : ((fun t : Task => t.task_id == tid) ∘
      (fun t => if t.task_id = rid then { t with status := st } else t)) =
      (fun t : Task => t.task_id == tid) := by
    funext x
    by_cases hx : x.task_id = rid
    · simp [Function.comp, hx]
    · simp [Function.comp, hx]
  rw [hpred]

theorem countRunning_setStatus_completed (r : Task) (hrun : r.status = .running) :
    ∀ ts : List Task, r ∈ ts → (ts.map Task.task_id).Nodup →
      countRunning (setStatus ts r.task_id .completed) + 1 = countRunning ts := by
  intro ts
  induction ts with
  | nil => intro hmem _; cases hmem
  | cons a l ih =>
    intro hmem hnodup
    have hnodup2 : (l.map Task.task_id).Nodup := (List.nodup_cons.mp hnodup).2
    have hnotmem : a.task_id ∉ l.map Task.task_id := (List.nodup_cons.mp hnodup).1
    rcases List.mem_cons.mp hmem with heq | hmem2
    · subst heq
      have hl : List.map (fun t =>
          if t.task_id = r.task_id then { t with status := Status.completed } else t) l
          = l := by
        have hall : ∀ x ∈ l, (if x.task_id = r.task_id then
            { x with status := Status.completed } else x) = x := by
          intro x hx
          rw [if_neg]
          intro hxe
          exact hnotmem (hxe ▸ List.mem_map_of_mem Task.task_id hx)
        rw [List.map_congr_left hall]
        exact List.map_id' l
      have hsetcons : setStatus (r :: l) r.task_id .completed =
          { r with status := .completed } :: l := by
        unfold setStatus
        rw [List.map_cons, if_pos rfl]
        rw [hl]
      rw [hsetcons, countRunning_cons, countRunning_cons]
      simp [isRunningB, hrun]
    · have hne : a.task_id ≠ r.task_id := by
        intro he
        exact hnotmem (he ▸ List.mem_map_of_mem Task.task_id hmem2)
      have hsetcons : setStatus (a :: l) r.task_id .completed =
          a :: setStatus l r.task_id .completed := by
        unfold setStatus
        rw [List.map_cons, if_neg hne]
      rw [hsetcons, countRunning_cons, countRunning_cons]
      have hih := ih hmem2 hnodup2
      by_cases ha : isRunningB a.status = true
      · rw [if_pos ha, if_pos ha]
        omega
      · rw [if_neg ha, if_neg ha]
        omega

theorem runTask_ok (m : Manager) (tid : Nat) (t : Task)
    (hfind : m.tasks.find? (fun x => x.task_id == tid) = some t)
    (hlt : countRunning m.tasks < m.max_concurrent)
    (hidle : t.status = .idle) :
    (runTask m tid).2 = none := by
  unfold runTask
  simp only [hfind]
  rw [if_neg (by omega), if_pos hidle]

end Engine

end Kjn

namespace Kjn

/-- C1: at every point of a task's lifetime the derived success rate lies in
the interval from 0 to 1, and equals successful over total requests whenever
any request was made: after any sequence of per-request outcome updates, and
at every observation point of a spider run (any fuel prefix of the loop). -/
theorem c1_success_rate_invariant (events : List Bool) (cfg : Engine.SpiderConfig)
    (f : Engine.Fetcher) (k : Nat) :
    Engine.metricsInv (Engine.applyEvents events) ∧
    Engine.metricsInv (Engine.runAux cfg f k Engine.initRunState).metrics :=
  ⟨Engine.metricsInv_applyEvents events,
   Engine.metricsInv_runAux cfg f k Engine.initRunState Engine.metricsInv_init⟩

/-- Witness for C1 at a concrete update sequence and a concrete two-page run. -/
theorem c1_success_rate_invariant_witness :
    Engine.metricsInv (Engine.applyEvents [true, false, true]) ∧
    Engine.metricsInv
      (Engine.runAux ⟨2, 2, none⟩ Engine.failingFetcher 4 Engine.initRunState).metrics :=
  c1_success_rate_invariant [true, false, true] ⟨2, 2, none⟩ Engine.failingFetcher 4

/-- C2: a terminal task (completed, stopped, error) admits no transition:
every control operation — resume in particular — is rejected, and a task
observed terminal stays in exactly that state under any later sequence of
operations. -/
theorem c2_terminal_is_frozen (s : Status) (acts : List Engine.TaskAction)
    (h : isTerminal s = true) :
    (∀ a, Engine.applyTransition s a = none) ∧ Engine.applyAll s acts = s := by
  refine ⟨fun a => Engine.applyTransition_terminal s a h, ?_⟩
  induction acts with
  | nil => rfl
  | cons a rest ih =>
    show Engine.applyAll ((Engine.applyTransition s a).getD s) rest = s
    rw [Engine.applyTransition_terminal s a h]
    exact ih

/-- Witness for C2: a stopped task rejects every action, and in particular
a resume followed by a run leaves it stopped. -/
theorem c2_terminal_is_frozen_witness :
    (∀ a, Engine.applyTransition .stopped a = none) ∧
      Engine.applyAll .stopped [.resumeA, .runA] = .stopped :=
  c2_terminal_is_frozen .stopped [.resumeA, .runA] rfl

/-- C3: with a fetcher that fails every request, a task with at least one
page of budget ends in status `error` after exactly `retry_times` fetch
attempts, all on the first page: no page is ever fetched, total requests
equal the retry budget, and no request succeeded. -/
theorem c3_all_requests_fail (r N : Nat) (hN : 1 ≤ N) :
    (Engine.runSpider ⟨r, N, none⟩ Engine.failingFetcher).status = .error ∧
    (Engine.runSpider ⟨r, N, none⟩ Engine.failingFetcher).metrics.total_requests = r ∧
    (Engine.runSpider ⟨r, N, none⟩ Engine.failingFetcher).metrics.successful_requests = 0 ∧
    (Engine.runSpider ⟨r, N, none⟩ Engine.failingFetcher).fetched = [] ∧
    (Engine.runSpider ⟨r, N, none⟩ Engine.failingFetcher).buffer = [] := by
  have hall : ∀ a, Engine.failingFetcher (1 : Nat) a = none := fun a => rfl
  have hfetch : Engine.fetchWithRetry Engine.failingFetcher 1 r = (r, none) :=
    Engine.fetchAttempts_all_none Engine.failingFetcher 1 hall r 0
  have hcap : ¬ (⟨r, N, none⟩ : Engine.SpiderConfig).max_pages <
      Engine.initRunState.nextPage := by
    simp only [Engine.initRunState]
    omega
  have hstep := Engine.step_fetch_none ⟨r, N, none⟩ Engine.failingFetcher
    Engine.initRunState r rfl rfl hcap hfetch
  have hrunspider : Engine.runSpider ⟨r, N, none⟩ Engine.failingFetcher =
      { Engine.initRunState with
        status := .error
        metrics := Engine.recordFetch Engine.initRunState.metrics r false
        errorMsg := some "fetch failed after retries" } := by
    have h0 : Engine.runSpider ⟨r, N, none⟩ Engine.failingFetcher =
        Engine.runAux ⟨r, N, none⟩ Engine.failingFetcher (N + 2) Engine.initRunState := rfl
    rw [h0, Engine.runAux_two_plus,
      if_pos (show Engine.initRunState.status = Status.running from rfl), hstep]
    exact Engine.runAux_not_running _ _ _ _ (by simp)
  rw [hrunspider]
  refine ⟨rfl, ?_, ?_, rfl, rfl⟩
  · simp [Engine.recordFetch, Engine.initRunState, Engine.initMetrics]
  · simp [Engine.recordFetch, Engine.initRunState, Engine.initMetrics]

/-- Witness for C3: retry budget 3 against a page cap of 5 errors out with
exactly 3 requests and nothing fetched. -/
theorem c3_all_requests_fail_witness :
    1 ≤ 5 ∧
    ((Engine.runSpider ⟨3, 5, none⟩ Engine.failingFetcher).status = .error ∧
     (Engine.runSpider ⟨3, 5, none⟩ Engine.failingFetcher).metrics.total_requests = 3 ∧
     (Engine.runSpider ⟨3, 5, none⟩ Engine.failingFetcher).metrics.successful_requests = 0 ∧
     (Engine.runSpider ⟨3, 5, none⟩ Engine.failingFetcher).fetched = [] ∧
     (Engine.runSpider ⟨3, 5, none⟩ Engine.failingFetcher).buffer = []) :=
  ⟨by omega, c3_all_requests_fail 3 5 (by omega)⟩

/-- C4 counterexample: with `max_pages = 1`, `retry_times = 2`, no lookback
window, and a fetcher whose requests fail, the run reaches a terminal state
with `total_requests = 2 > 1 = max_pages` — retry attempts are counted as
requests (as the retry scenario of §8 itself requires), so the claimed
`total_requests ≤ max_pages` bound fails. -/
theorem c4_requests_bound_counterexample :
    ((Engine.runSpider ⟨2, 1, none⟩ Engine.failingFetcher).metrics.total_requests = 2) ∧
    isTerminal (Engine.runSpider ⟨2, 1, none⟩ Engine.failingFetcher).status = true ∧
    ¬ ((Engine.runSpider ⟨2, 1, none⟩ Engine.failingFetcher).metrics.total_requests ≤ 1) := by
  decide

/-- C4 amended: every run reaches a terminal state with
`total_requests ≤ max_pages * retry_times`; the claimed `≤ max_pages` bound
holds whenever every page's first fetch attempt succeeds (in particular
when no request fails). -/
theorem c4_requests_bound (cfg : Engine.SpiderConfig) (f : Engine.Fetcher) :
    isTerminal (Engine.runSpider cfg f).status = true ∧
    (Engine.runSpider cfg f).metrics.total_requests ≤
      cfg.max_pages * cfg.retry_times ∧
    ((∀ p, (f p 0).isSome = true) →
      (Engine.runSpider cfg f).metrics.total_requests ≤ cfg.max_pages) :=
  ⟨Engine.runSpider_terminal cfg f, Engine.runSpider_total_le cfg f,
   fun hok => Engine.runSpider_total_le_ok cfg f hok⟩

/-- Witness for C4 amended at `max_pages = 5`, `retry_times = 1` and an
always-succeeding fetcher: terminal, at most 5 requests. -/
theorem c4_requests_bound_witness :
    isTerminal (Engine.runSpider ⟨1, 5, none⟩ Engine.alwaysOkFetcher).status = true ∧
    (Engine.runSpider ⟨1, 5, none⟩ Engine.alwaysOkFetcher).metrics.total_requests ≤ 5 * 1 ∧
    (Engine.runSpider ⟨1, 5, none⟩ Engine.alwaysOkFetcher).metrics.total_requests ≤ 5 :=
  ⟨(c4_requests_bound ⟨1, 5, none⟩ Engine.alwaysOkFetcher).1,
   (c4_requests_bound ⟨1, 5, none⟩ Engine.alwaysOkFetcher).2.1,
   (c4_requests_bound ⟨1, 5, none⟩ Engine.alwaysOkFetcher).2.2 (fun _ => rfl)⟩

/-- C5: pausing a running task then resuming it loses nothing and repeats
nothing. The loop iteration that observes the pause flag suspends without
touching buffer or fetched pages; while paused, further iterations change
nothing; resume restores exactly the pre-pause state; and the first
iteration after resume fetches page `nextPage` — appending that page's
items after the preserved buffer — where the fetched pages are exactly
1..nextPage-1, so `nextPage` is the first unfetched page and is not page 1
once anything was fetched. -/
theorem c5_pause_resume_preserves (cfg : Engine.SpiderConfig) (f : Engine.Fetcher)
    (s : Engine.RunState) (n : Nat) (pd : Engine.PageData)
    (hrun : s.status = .running) (hctl : s.control = .go)
    (hcap : ¬ cfg.max_pages < s.nextPage)
    (hf : Engine.fetchWithRetry f s.nextPage cfg.retry_times = (n, some pd))
    (hrange : s.fetched = List.range' 1 s.fetched.length)
    (hnp : s.nextPage = s.fetched.length + 1)
    (hne : s.fetched ≠ []) :
    (Engine.step cfg f (Engine.requestPause s)).status = .paused ∧
    (Engine.step cfg f (Engine.requestPause s)).buffer = s.buffer ∧
    (Engine.step cfg f (Engine.requestPause s)).fetched = s.fetched ∧
    Engine.step cfg f (Engine.step cfg f (Engine.requestPause s)) =
      Engine.step cfg f (Engine.requestPause s) ∧
    Engine.resume (Engine.step cfg f (Engine.requestPause s)) = s ∧
    (Engine.step cfg f (Engine.resume (Engine.step cfg f (Engine.requestPause s)))).buffer
      = s.buffer ++ pd.items ∧
    (Engine.step cfg f (Engine.resume (Engine.step cfg f (Engine.requestPause s)))).fetched
      = s.fetched ++ [s.nextPage] ∧
    s.fetched = List.range' 1 (s.nextPage - 1) ∧
    s.nextPage ∉ s.fetched ∧
    s.nextPage ≠ 1 := by
  obtain ⟨st, ctl, np, fe, bu, me, er⟩ := s
  have hst : st = .running := hrun
  have hct : ctl = .go := hctl
  subst hst hct
  have hrg : fe = List.range' 1 fe.length := hrange
  have hnp2 : np = fe.length + 1 := hnp
  have hne2 : fe ≠ [] := hne
  have hlen : 0 < fe.length := List.length_pos.mpr hne2
  obtain ⟨L, hL⟩ : ∃ L, L = fe.length := ⟨fe.length, rfl⟩
  rw [← hL] at hrg hnp2 hlen
  have hstep := Engine.step_fetch_some cfg f
    ⟨.running, .go, np, fe, bu, me, er⟩ n pd rfl rfl hcap hf
  have hbf : (Engine.step cfg f
        (⟨.running, .go, np, fe, bu, me, er⟩ : Engine.RunState)).buffer
        = bu ++ pd.items ∧
      (Engine.step cfg f
        (⟨.running, .go, np, fe, bu, me, er⟩ : Engine.RunState)).fetched
        = fe ++ [np] := by
    rw [hstep]
    by_cases hmore : (!pd.hasMore || Engine.cutoffHit cfg pd.items) = true
    · rw [if_pos hmore]
      exact ⟨rfl, rfl⟩
    · rw [if_neg hmore]
      exact ⟨rfl, rfl⟩
  refine ⟨rfl, rfl, rfl, rfl, rfl, hbf.1, hbf.2, ?_, ?_, ?_⟩
  · show fe = List.range' 1 (np - 1)
    have he : np - 1 = L := by omega
    rw [he]
    exact hrg
  · show np ∉ fe
    intro hmem
    rw [hrg, List.mem_range'_1] at hmem
    omega
  · show np ≠ 1
    omega

/-- Concrete item for the C5 witness run. -/
def wItem (p : Nat) : Engine.NormalizedItem :=
  { content := "review text", rating := some 5, author := "user", product := "app",
    source_timestamp := p, platform := "ios" }

/-- Concrete fetcher for the C5 witness: page `p` always yields one item
and a more-pages signal. -/
def wFetcher : Engine.Fetcher := fun p _ => some { items := [wItem p], hasMore := true }

/-- Concrete mid-run state for the C5 witness: page 1 fetched, page 2 next. -/
def wState : Engine.RunState :=
  { status := .running, control := .go, nextPage := 2, fetched := [1],
    buffer := [wItem 1], metrics := Engine.initMetrics, errorMsg := none }

/-- Witness for C5 at the concrete mid-run state `wState` under `wFetcher`. -/
theorem c5_pause_resume_preserves_witness :
    (Engine.step ⟨1, 5, none⟩ wFetcher (Engine.requestPause wState)).status = .paused ∧
    (Engine.step ⟨1, 5, none⟩ wFetcher (Engine.requestPause wState)).buffer = wState.buffer ∧
    (Engine.step ⟨1, 5, none⟩ wFetcher (Engine.requestPause wState)).fetched = wState.fetched ∧
    Engine.step ⟨1, 5, none⟩ wFetcher
        (Engine.step ⟨1, 5, none⟩ wFetcher (Engine.requestPause wState)) =
      Engine.step ⟨1, 5, none⟩ wFetcher (Engine.requestPause wState) ∧
    Engine.resume (Engine.step ⟨1, 5, none⟩ wFetcher (Engine.requestPause wState)) = wState ∧
    (Engine.step ⟨1, 5, none⟩ wFetcher
        (Engine.resume (Engine.step ⟨1, 5, none⟩ wFetcher
          (Engine.requestPause wState)))).buffer
      = wState.buffer ++ ({ items := [wItem 2], hasMore := true } : Engine.PageData).items ∧
    (Engine.step ⟨1, 5, none⟩ wFetcher
        (Engine.resume (Engine.step ⟨1, 5, none⟩ wFetcher
          (Engine.requestPause wState)))).fetched
      = wState.fetched ++ [wState.nextPage] ∧
    wState.fetched = List.range' 1 (wState.nextPage - 1) ∧
    wState.nextPage ∉ wState.fetched ∧
    wState.nextPage ≠ 1 :=
  c5_pause_resume_preserves ⟨1, 5, none⟩ wFetcher wState 1
    { items := [wItem 2], hasMore := true }
    rfl rfl (by decide) rfl rfl rfl (by decide)

/-- C6: cleanup removes exactly the terminal tasks whose terminal timestamp
is older than the retention window: a task survives iff it was registered
and not expired, a non-terminal task always survives, and the returned
count is the number of expired tasks removed. -/
theorem c6_cleanup_removes_exactly (now retention : Nat) (tasks : List Engine.Task) :
    (∀ t, t ∈ (Engine.cleanupTasks now retention tasks).1 ↔
        t ∈ tasks ∧ ¬ Engine.expiredProp now retention t) ∧
    (∀ t, t ∈ tasks → isTerminal t.status = false →
        t ∈ (Engine.cleanupTasks now retention tasks).1) ∧
    (Engine.cleanupTasks now retention tasks).2 =
      (tasks.filter (fun t => Engine.isExpired now retention t)).length := by
  refine ⟨?_, ?_, Engine.cleanup_count now retention tasks⟩
  · intro t
    show t ∈ tasks.filter (fun u => !Engine.isExpired now retention u) ↔ _
    rw [List.mem_filter]
    constructor
    · rintro ⟨h1, h2⟩
      refine ⟨h1, fun hexp => ?_⟩
      rw [← Engine.isExpired_iff] at hexp
      rw [hexp] at h2
      simp at h2
    · rintro ⟨h1, h2⟩
      refine ⟨h1, ?_⟩
      rw [← Engine.isExpired_iff] at h2
      cases hb : Engine.isExpired now retention t
      · simp
      · exact absurd hb h2
  · intro t hmem hterm
    show t ∈ tasks.filter (fun u => !Engine.isExpired now retention u)
    rw [List.mem_filter]
    exact ⟨hmem, by simp [Engine.isExpired, hterm]⟩

/-- Concrete params shared by the registry witnesses. -/
def wParams : Engine.TaskParams :=
  { platform := "ios", target_id := "123456", country := "cn", days_back := 7,
    max_pages := 5, task_name := "w" }

/-- A long-finished task, eligible for cleanup. -/
def wTaskDone : Engine.Task :=
  { task_id := 1, status := .completed, completed_at := some 0, params := wParams,
    metrics := Engine.initMetrics, buffer := [] }

/-- A still-running task, which cleanup must never remove. -/
def wTaskRun : Engine.Task :=
  { task_id := 2, status := .running, completed_at := none, params := wParams,
    metrics := Engine.initMetrics, buffer := [] }

/-- Witness for C6 on a registry holding one expired and one running task. -/
theorem c6_cleanup_removes_exactly_witness :
    (wTaskRun ∈ (Engine.cleanupTasks 1000000 10 [wTaskDone, wTaskRun]).1 ↔
      wTaskRun ∈ [wTaskDone, wTaskRun] ∧ ¬ Engine.expiredProp 1000000 10 wTaskRun) ∧
    (wTaskDone ∈ (Engine.cleanupTasks 1000000 10 [wTaskDone, wTaskRun]).1 ↔
      wTaskDone ∈ [wTaskDone, wTaskRun] ∧ ¬ Engine.expiredProp 1000000 10 wTaskDone) ∧
    (wTaskRun ∈ [wTaskDone, wTaskRun] → isTerminal wTaskRun.status = false →
      wTaskRun ∈ (Engine.cleanupTasks 1000000 10 [wTaskDone, wTaskRun]).1) ∧
    (Engine.cleanupTasks 1000000 10 [wTaskDone, wTaskRun]).2 =
      ([wTaskDone, wTaskRun].filter (fun t => Engine.isExpired 1000000 10 t)).length :=
  ⟨(c6_cleanup_removes_exactly 1000000 10 [wTaskDone, wTaskRun]).1 wTaskRun,
   (c6_cleanup_removes_exactly 1000000 10 [wTaskDone, wTaskRun]).1 wTaskDone,
   fun h1 h2 => (c6_cleanup_removes_exactly 1000000 10 [wTaskDone, wTaskRun]).2.1
     wTaskRun h1 h2,
   (c6_cleanup_removes_exactly 1000000 10 [wTaskDone, wTaskRun]).2.2⟩

/-- C8: preview of a task with a non-empty buffer — in any lifecycle state,
terminal or not — returns the total count, the sample size
`min limit total`, and the sample itself, while leaving the registry (hence
the task's status, params, metrics, and buffer) unchanged; with a positive
limit the sample is non-empty. -/
theorem c8_preview_read_only (reg : List Engine.Task) (tid limit : Nat)
    (t : Engine.Task)
    (hfind : reg.find? (fun x => x.task_id == tid) = some t)
    (hbuf : t.buffer ≠ []) :
    (Engine.previewTask reg tid limit).2 = reg ∧
    (Engine.previewTask reg tid limit).1 =
      some { total_count := t.buffer.length
             preview_count := min limit t.buffer.length
             preview_data := t.buffer.take limit } ∧
    (1 ≤ limit → t.buffer.take limit ≠ []) := by
  have hprev : Engine.previewTask reg tid limit =
      (some { total_count := t.buffer.length
              preview_count := (t.buffer.take limit).length
              preview_data := t.buffer.take limit }, reg) := by
    unfold Engine.previewTask
    rw [hfind]
  refine ⟨by rw [hprev], ?_, ?_⟩
  · rw [hprev]
    simp [List.length_take]
  · intro hl
    cases hbuffer : t.buffer with
    | nil => exact absurd hbuffer hbuf
    | cons a l =>
      cases limit with
      | zero => omega
      | succ k => simp

/-- A mid-run task with three buffered items, for the C8 witness. -/
def wTaskBuf : Engine.Task :=
  { task_id := 3, status := .running, completed_at := none, params := wParams,
    metrics := Engine.initMetrics, buffer := [wItem 1, wItem 2, wItem 3] }

/-- Witness for C8 on a running (non-terminal) task with a non-empty buffer. -/
theorem c8_preview_read_only_witness :
    (Engine.previewTask [wTaskBuf] 3 2).2 = [wTaskBuf] ∧
    (Engine.previewTask [wTaskBuf] 3 2).1 =
      some { total_count := wTaskBuf.buffer.length
             preview_count := min 2 wTaskBuf.buffer.length
             preview_data := wTaskBuf.buffer.take 2 } ∧
    (1 ≤ 2 → wTaskBuf.buffer.take 2 ≠ []) :=
  c8_preview_read_only [wTaskBuf] 3 2 wTaskBuf rfl (by decide)

/-- C7: when the number of running tasks already equals the
`max_concurrent` ceiling, `run(task_id)` on a registered idle task is
rejected with the concurrency-limit error and the registry is unchanged;
once one of the running tasks completes (reaches a terminal state), the
same call is accepted. -/
theorem c7_concurrency_ceiling (m : Engine.Manager) (tid : Nat)
    (t r : Engine.Task)
    (hfind : m.tasks.find? (fun x => x.task_id == tid) = some t)
    (hidle : t.status = .idle)
    (hfull : Engine.countRunning m.tasks = m.max_concurrent)
    (hmem : r ∈ m.tasks) (hrrun : r.status = .running)
    (hnodup : (m.tasks.map Engine.Task.task_id).Nodup) :
    (Engine.runTask m tid).2 = some .concurrencyLimit ∧
    (Engine.runTask m tid).1 = m ∧
    (Engine.runTask (Engine.markCompleted m r.task_id) tid).2 = none := by
  have hrt : Engine.runTask m tid = (m, some .concurrencyLimit) := by
    unfold Engine.runTask
    simp only [hfind]
    rw [if_pos (by omega)]
  have htid : t.task_id = tid := by
    have hp := List.find?_some hfind
    simpa using hp
  have htmem : t ∈ m.tasks := List.mem_of_find?_eq_some hfind
  have htner : t ≠ r := by
    intro he
    rw [he, hrrun] at hidle
    exact Status.noConfusion hidle
  have hner : t.task_id ≠ r.task_id := by
    intro he
    exact htner (List.inj_on_of_nodup_map hnodup htmem hmem he)
  have hcount := Engine.countRunning_setStatus_completed r hrrun m.tasks hmem hnodup
  have hfind2 : (Engine.setStatus m.tasks r.task_id .completed).find?
      (fun x => x.task_id == tid) = some t := by
    rw [Engine.find?_setStatus, hfind]
    simp [hner]
  refine ⟨by rw [hrt], by rw [hrt], ?_⟩
  exact Engine.runTask_ok (Engine.markCompleted m r.task_id) tid t hfind2
    (by show Engine.countRunning (Engine.setStatus m.tasks r.task_id .completed) <
          m.max_concurrent
        omega)
    hidle

/-- An idle task waiting for the C7 witness ceiling to clear. -/
def wTaskIdle : Engine.Task :=
  { task_id := 4, status := .idle, completed_at := none, params := wParams,
    metrics := Engine.initMetrics, buffer := [] }

/-- A one-slot manager whose only slot is taken by a running task. -/
def wManager : Engine.Manager :=
  { tasks := [wTaskRun, wTaskIdle], max_concurrent := 1 }

/-- Witness for C7: with `max_concurrent = 1` and one running task, running
the idle task is rejected with the concurrency-limit error and the registry
is untouched; after the running task completes, the same call is accepted. -/
theorem c7_concurrency_ceiling_witness :
    (Engine.runTask wManager 4).2 = some .concurrencyLimit ∧
    (Engine.runTask wManager 4).1 = wManager ∧
    (Engine.runTask (Engine.markCompleted wManager wTaskRun.task_id) 4).2 = none :=
  c7_concurrency_ceiling wManager 4 wTaskIdle wTaskRun
    (by decide) (by decide) (by decide) (by decide) (by decide) (by decide)

/-- C9: every import issued through the management UI requests downstream AI
analysis: the `importData` flow omits the second argument, `importTaskData`
defaults it to true, and only an explicit `some false` disables it. -/
theorem c9_import_defaults_ai_analysis :
    (∀ tid : String, (SpiderManagement.importData tid).enable_ai_analysis = true) ∧
    (∀ tid : String, ∀ b : Bool,
      (SpiderAPI.importTaskData tid (some b)).enable_ai_analysis = b) := by
  constructor
  · intro tid
    rfl
  · intro tid b
    rfl

/-- C10: in the create-task flow a run request is issued right after the
create call exactly when the form's execution mode is the string async; in
sync mode (labeled immediate execution) only the create call is issued. -/
theorem c10_run_iff_async (form : SpiderManagement.CreateForm) (tid : Nat)
    (hplat : form.platform = "ios" ∨ form.platform = "android") :
    (SpiderManagement.ApiCall.runTaskCall tid ∈
        SpiderManagement.createTaskCalls form tid ↔
      form.execution_mode = "async") ∧
    (form.execution_mode = "async" →
      (SpiderManagement.createTaskCalls form tid).getLast? =
        some (SpiderManagement.ApiCall.runTaskCall tid)) := by
  rcases hplat with h | h <;>
    simp only [SpiderManagement.createTaskCalls, h] <;>
    by_cases hm : form.execution_mode = "async" <;>
    simp [hm]

/-- Witness for C10 at a concrete form: async mode issues the run call last,
and flipping the mode to sync is exactly the create-only case. -/
theorem c10_run_iff_async_witness :
    (SpiderManagement.ApiCall.runTaskCall 7 ∈
        SpiderManagement.createTaskCalls
          { platform := "ios", appid := "123456", country := "cn", days_back := 7,
            market := "4", max_pages := 5, task_name := "t", execution_mode := "async" } 7 ↔
      ({ platform := "ios", appid := "123456", country := "cn", days_back := 7,
          market := "4", max_pages := 5, task_name := "t",
          execution_mode := "async" } : SpiderManagement.CreateForm).execution_mode = "async") ∧
    (({ platform := "ios", appid := "123456", country := "cn", days_back := 7,
        market := "4", max_pages := 5, task_name := "t",
        execution_mode := "async" } : SpiderManagement.CreateForm).execution_mode = "async" →
      (SpiderManagement.createTaskCalls
          { platform := "ios", appid := "123456", country := "cn", days_back := 7,
            market := "4", max_pages := 5, task_name := "t", execution_mode := "async" } 7).getLast? =
        some (SpiderManagement.ApiCall.runTaskCall 7)) :=
  c10_run_iff_async
    { platform := "ios", appid := "123456", country := "cn", days_back := 7,
      market := "4", max_pages := 5, task_name := "t", execution_mode := "async" } 7
    (Or.inl rfl)

end Kjn
